import Mathlib

/-!
Shallow embedding of the gmsh-scripting repository (geometry_def.py, mesh.py,
params.py, run_mesh_config.py). All numeric values are exact rationals; the
double-precision value of numpy pi used by the scripts is embedded as the exact
rational npPi. Behaviour of the external gmsh engine is modelled only where a
specified property requires it, and such definitions are marked as modelled
from the spec.
-/

namespace GmshScripting

/-- Top-level names defined by geometry_def.py (classes and functions); the
module defines no name sigmoid_transition anywhere. -/
def geometry_def_exports : List String :=
  ["Point", "Line", "CurveLoop", "Circle", "Rectangle", "PlaneSurface",
   "add_refinement_zone_rect", "add_refinement_zone_cyl", "extend_from_circle",
   "threshold", "custom_distance", "apply_fields", "Config", "Params",
   "RunMeshConfig"]

/-- Names that mesh.py (line 2) asks to bring in from geometry_def. -/
def mesh_imports : List String :=
  ["Circle", "PlaneSurface", "Rectangle", "Point", "add_refinement_zone_rect",
   "apply_fields", "custom_distance", "Config", "Params", "RunMeshConfig",
   "sigmoid_transition"]

/-- Loading the mesh module resolves each name of its from-list against the
names defined by geometry_def; the first unresolved name aborts the load with
an ImportError, exactly as the Python interpreter does. -/
def import_mesh_module : Except String Unit :=
  match mesh_imports.find? (fun n => !(geometry_def_exports.contains n)) with
  | some n => Except.error ("ImportError: cannot import name " ++ n ++ " from geometry_def")
  | none => Except.ok ()

/-- Exact rational value of the IEEE double np.pi used by the scripts,
equal to 7074237752028440 * 2 ^ (-51). -/
def npPi : ℚ := 884279719003555 / 281474976710656

/-- Embedding of class Point (geometry_def.py lines 11-40): coordinates and the
mesh size forwarded verbatim to the engine registration call addPoint; the
constructor performs no validation. -/
structure Point where
  x : ℚ
  y : ℚ
  z : ℚ
  mesh_size : ℚ

/-- Constructor of Point (geometry_def.py line 30): z is fixed to 0. -/
def Point.make (x y mesh_size : ℚ) : Point :=
  { x := x, y := y, z := 0, mesh_size := mesh_size }

/-- Embedding of class Circle (geometry_def.py lines 157-203). The arcs field
records, for each addCircle registration issued by the constructor, the pair
(angle1, angle2) of that arc. -/
structure Circle where
  xc : ℚ
  yc : ℚ
  radius : ℚ
  mesh_size : ℚ
  distribution : ℕ
  arcs : List (ℚ × ℚ)

/-- Constructor of Circle (geometry_def.py lines 178-203): radius is diameter/2,
mesh_size is diameter/n_points, distribution is int(n_points * np.pi) (floor,
since the product is nonnegative), and arc i spans angles
2 pi / distribution * i to 2 pi / distribution * (1 + i), with pi the double
np.pi. No validation is performed on the diameter or the mesh size. -/
def Circle.make (xc yc diameter : ℚ) (n_points : ℕ) : Circle :=
  let distribution : ℕ := ⌊(n_points : ℚ) * npPi⌋₊
  { xc := xc
    yc := yc
    radius := diameter / 2
    mesh_size := diameter / (n_points : ℚ)
    distribution := distribution
    arcs := (List.range distribution).map
      (fun i : ℕ => (2 * npPi / (distribution : ℚ) * (i : ℚ),
                     2 * npPi / (distribution : ℚ) * (1 + (i : ℚ)))) }

/-- Embedding of class Rectangle (geometry_def.py lines 266-314): a center,
two side lengths and a mesh size, all forwarded verbatim; the constructor
performs no validation. -/
structure Rectangle where
  xc : ℚ
  yc : ℚ
  dx : ℚ
  dy : ℚ
  mesh_size : ℚ

/-- The 4 corner points of the rectangle in the order built by the constructor
(geometry_def.py lines 301-306). -/
def Rectangle.corner_points (r : Rectangle) : List (ℚ × ℚ) :=
  [(r.xc - r.dx / 2, r.yc - r.dy / 2),
   (r.xc + r.dx / 2, r.yc - r.dy / 2),
   (r.xc + r.dx / 2, r.yc + r.dy / 2),
   (r.xc - r.dx / 2, r.yc + r.dy / 2)]

/-- The 4 lines of the rectangle as (start point, end point) pairs in the order
built by the constructor (geometry_def.py lines 309-314). -/
def Rectangle.line_endpoint_pairs (r : Rectangle) : List ((ℚ × ℚ) × (ℚ × ℚ)) :=
  [((r.xc - r.dx / 2, r.yc - r.dy / 2), (r.xc + r.dx / 2, r.yc - r.dy / 2)),
   ((r.xc + r.dx / 2, r.yc - r.dy / 2), (r.xc + r.dx / 2, r.yc + r.dy / 2)),
   ((r.xc + r.dx / 2, r.yc + r.dy / 2), (r.xc - r.dx / 2, r.yc + r.dy / 2)),
   ((r.xc - r.dx / 2, r.yc + r.dy / 2), (r.xc - r.dx / 2, r.yc - r.dy / 2))]

/-- Line of the rectangle at a given index (self.lines[i] in the source). -/
def Rectangle.line (r : Rectangle) (i : ℕ) : (ℚ × ℚ) × (ℚ × ℚ) :=
  r.line_endpoint_pairs.getD i ((0, 0), (0, 0))

/-- Embedding of Rectangle.define_bc (geometry_def.py lines 327-353): the
physical name given to each line index, in the order of the source. -/
def Rectangle.bc_names : List (ℕ × String) :=
  [(3, "inlet"), (1, "outlet"), (2, "wall_top"), (0, "wall_bottom")]

/-- Name passed to Circle.define_bc for cylinder i in the BC loop of mesh
(mesh.py lines 57-58). -/
def circle_bc_name (i : ℕ) : String :=
  "cyl" ++ toString i

/-- Embedding of the BC loop of mesh (mesh.py lines 57-58): the names given to
the cylinders, in enumeration order of the position list. -/
def mesh_cyl_bc_names (n : ℕ) : List String :=
  (List.range n).map circle_bc_name

/-- Embedding of PlaneSurface.define_bc (geometry_def.py lines 411-417). -/
def PlaneSurface.bc_name : String := "fluid"

/-- Embedding of the Box field registered by add_refinement_zone_rect
(geometry_def.py lines 419-429): the numbers set on the field. -/
structure BoxField where
  vin : ℚ
  vout : ℚ
  xmin : ℚ
  xmax : ℚ
  ymin : ℚ
  ymax : ℚ
  thickness : ℚ

/-- Embedding of add_refinement_zone_rect (geometry_def.py lines 419-429): the
function has exactly 6 parameters and sets Thickness to 0.3. -/
def add_refinement_zone_rect (xc yc box_length box_height mesh_size mesh_size_out : ℚ) :
    BoxField :=
  { vin := mesh_size
    vout := mesh_size_out
    xmin := xc - box_length / 2
    xmax := xc + box_length / 2
    ymin := yc - box_height / 2
    ymax := yc + box_height / 2
    thickness := 3 / 10 }

/-- Dynamic call semantics of Python for add_refinement_zone_rect: a call whose
positional argument count differs from the 6 declared parameters raises a
TypeError instead of entering the function body. -/
def call_add_refinement_zone_rect (args : List ℚ) : Except String BoxField :=
  match args with
  | [xc, yc, box_length, box_height, mesh_size, mesh_size_out] =>
      Except.ok (add_refinement_zone_rect xc yc box_length box_height mesh_size mesh_size_out)
  | _ => Except.error ("TypeError: add_refinement_zone_rect takes 6 positional arguments")

/-- Embedding of class Params (geometry_def.py lines 511-537). -/
structure Params where
  diameter : ℚ
  n_points_cyl : ℕ
  height : ℚ
  length_upstream : ℚ
  length_downstream : ℚ
  global_mesh_size : ℚ
  length_refinement : ℚ
  length_refinement_downstream : ℚ
  refined_mesh_size : ℚ

/-- The documented default parameter values from the Params docstring
(geometry_def.py lines 513-526): DIAMETER = 0.01, N_POINTS_CYL = 50,
HEIGHT = 52 D, LENGTH_UPSTREAM = 10 D, LENGTH_DOWNSTREAM = 46 D,
GLOBAL_MESH_SIZE = 2 D, LENGTH_REFINEMENT = D,
LENGTH_REFINEMENT_DOWNSTREAM = 4 D, REFINED_MESH_SIZE = D / 12. -/
def params_default : Params :=
  { diameter := 1 / 100
    n_points_cyl := 50
    height := 52 / 100
    length_upstream := 10 / 100
    length_downstream := 46 / 100
    global_mesh_size := 2 / 100
    length_refinement := 1 / 100
    length_refinement_downstream := 4 / 100
    refined_mesh_size := 1 / 1200 }

/-- Embedding of the per-cylinder refinement loop of mesh (mesh.py lines
27-45): for each position, the source calls add_refinement_zone_rect with the
7 positional arguments (xc, yc, total_length, length_refinement * 2,
refined_mesh_size, global_mesh_size, 40 * diameter) and appends the result to
the accumulated fields list; an exception aborts the loop. -/
def mesh_fields_loop (params : Params) :
    List (ℚ × ℚ) → List BoxField → Except String (List BoxField)
  | [], fields => Except.ok fields
  | pos :: rest, fields =>
    let total_length := params.length_refinement + params.length_refinement_downstream
    let xc := total_length / 2 - params.length_refinement + pos.1
    let yc := pos.2
    match call_add_refinement_zone_rect
        [xc, yc, total_length, params.length_refinement * 2,
         params.refined_mesh_size, params.global_mesh_size, 40 * params.diameter] with
    | Except.error e => Except.error e
    | Except.ok f => mesh_fields_loop params rest (fields ++ [f])

/-- The refinement fields accumulated by mesh for a given position list,
starting from the empty list as in the source (mesh.py line 30). -/
def mesh_refinement_fields (cylinders_pos : List (ℚ × ℚ)) (params : Params) :
    Except String (List BoxField) :=
  mesh_fields_loop params cylinders_pos []

/-- Embedding of the bounding-rectangle construction of mesh (mesh.py lines
22-25): total_length = length_upstream + length_downstream, center abscissa
total_length / 2 - length_upstream, ordinate 0, sides total_length and height,
mesh size global_mesh_size. -/
def mesh_ext_domain (params : Params) : Rectangle :=
  let total_length := params.length_upstream + params.length_downstream
  { xc := total_length / 2 - params.length_upstream
    yc := 0
    dx := total_length
    dy := params.height
    mesh_size := params.global_mesh_size }

/-- Embedding of the Threshold field registered by threshold (geometry_def.py
lines 454-465), with a Distance in-field anchored at the given center: note
that the source sets DistMin to dist_max (the dist_min argument is never
used), DistMax to dist_max, StopAtDistMax to dist_max * 1.1, SizeMin to
mesh_size_in and SizeMax to mesh_size_out. -/
structure ThresholdField where
  center : ℚ × ℚ
  distMin : ℚ
  distMax : ℚ
  stopAtDistMax : ℚ
  sizeMin : ℚ
  sizeMax : ℚ

/-- Embedding of threshold (geometry_def.py lines 454-465). -/
def threshold (xc yc dist_min dist_max mesh_size_in mesh_size_out : ℚ) : ThresholdField :=
  { center := (xc, yc)
    distMin := dist_max
    distMax := dist_max
    stopAtDistMax := dist_max * (11 / 10)
    sizeMin := mesh_size_in
    sizeMax := mesh_size_out }

/-- Modelled from the spec: the external engine (absent from src) evaluates a
Threshold field at a point whose Distance in-field value is d as SizeMin below
DistMin, SizeMax above DistMax, and the linear interpolation between the two on
the band in between. -/
def thresholdEval (f : ThresholdField) (d : ℚ) : ℚ :=
  if d ≤ f.distMin then f.sizeMin
  else if f.distMax ≤ d then f.sizeMax
  else f.sizeMin + (d - f.distMin) / (f.distMax - f.distMin) * (f.sizeMax - f.sizeMin)

/-- The sizing the claim describes, written from the words of the spec: size
varies linearly between mesh_size_in at distance dist_min and mesh_size_out at
distance dist_max, and saturates at mesh_size_out beyond dist_max. -/
def threshold_spec_eval (dist_min dist_max mesh_size_in mesh_size_out d : ℚ) : ℚ :=
  if d ≤ dist_min then mesh_size_in
  else if dist_max ≤ d then mesh_size_out
  else mesh_size_in + (d - dist_min) / (dist_max - dist_min) * (mesh_size_out - mesh_size_in)

/-- Modelled from the spec: the external engine (absent from src) evaluates a
Min combinator field as the elementwise minimum over the fields of its
FieldsList; the scripts never register it over an empty list. -/
def minFieldEval (fields : List ((ℚ × ℚ) → ℚ)) (p : ℚ × ℚ) : ℚ :=
  match fields with
  | [] => 0
  | f :: fs => fs.foldl (fun m g => min m (g p)) (f p)

/-- Embedding of apply_fields (geometry_def.py lines 490-493): register a Min
field over the given fields and install it as the background sizing field; the
returned function is the background field seen by the mesher. -/
def apply_fields (fields : List ((ℚ × ℚ) → ℚ)) : (ℚ × ℚ) → ℚ :=
  minFieldEval fields

/-- Engine-side coordinate store for registered points: the coordinates held
by the engine for each point tag (translations act on the engine model, the
Python attributes are never updated). -/
def PointStore : Type := ℕ → ℚ × ℚ × ℚ

/-- Embedding of Point.translation (geometry_def.py lines 63-73): the engine
adds the vector to the coordinates of the translated point. -/
def translate_point (s : PointStore) (t : ℕ) (v : ℚ × ℚ × ℚ) : PointStore :=
  fun u => if u = t then s u + v else s u

/-- Embedding of Line.translation (geometry_def.py lines 120-130): the engine
moves the line together with its two endpoint vertices. -/
def translate_line (s : PointStore) (l : ℕ × ℕ) (v : ℚ × ℚ × ℚ) : PointStore :=
  translate_point (translate_point s l.1 v) l.2 v

/-- The endpoint tags of the 4 lines of a rectangle, in constructor order:
line i joins corner i to corner (i + 1) mod 4 (geometry_def.py lines 309-314). -/
def Rectangle.line_tag_pairs : List (ℕ × ℕ) :=
  [(0, 1), (1, 2), (2, 3), (3, 0)]

/-- Translation of a list of lines, each line moved with its endpoints. -/
def lines_translation (line_tags : List (ℕ × ℕ)) (v : ℚ × ℚ × ℚ) (s : PointStore) :
    PointStore :=
  line_tags.foldl (fun st l => translate_line st l v) s

/-- Embedding of Rectangle.translation (geometry_def.py lines 371-381):
translate each of the 4 lines of the rectangle. -/
def Rectangle.translation (s : PointStore) (v : ℚ × ℚ × ℚ) : PointStore :=
  lines_translation Rectangle.line_tag_pairs v s

/-- Number of line endpoints of a line list that carry a given point tag (a
bookkeeping device for reasoning about repeated translations of shared
points). -/
def endpoint_count (line_tags : List (ℕ × ℕ)) (u : ℕ) : ℕ :=
  (line_tags.map (fun l => (if u = l.1 then 1 else 0) + (if u = l.2 then 1 else 0))).sum

/-- Engine-side geometric datum of one registered circle arc: its center and
the data that place its points (radius and angle span); a translation moves
the center, carrying every constituent point with it. -/
structure ArcGeom where
  center : ℚ × ℚ × ℚ
  radius : ℚ
  angle1 : ℚ
  angle2 : ℚ

/-- Embedding of Circle.translation (geometry_def.py lines 250-263): translate
every arc of the arcCircle list. -/
def Circle.translation (arcs : List ArcGeom) (v : ℚ × ℚ × ℚ) : List ArcGeom :=
  arcs.map (fun a => ArcGeom.mk (a.center + v) a.radius a.angle1 a.angle2)

/-- C1: for every invocation as shipped, loading the mesh module fails: the
from-list of mesh.py names sigmoid_transition, which geometry_def defines
nowhere, so the load aborts with an ImportError and neither mesh nor run can
ever be called without first editing the source. -/
theorem import_mesh_fails :
    import_mesh_module =
      Except.error ("ImportError: cannot import name sigmoid_transition from geometry_def") ∧
    geometry_def_exports.contains ("sigmoid_transition") = false := by
  constructor <;> rfl

/-- C6: the bounding rectangle built by mesh has length
length_upstream + length_downstream, height equal to height, center abscissa
(length_upstream + length_downstream) / 2 - length_upstream, and its left
(upstream) edge sits at abscissa -length_upstream while its right (downstream)
edge sits at abscissa length_downstream, so the origin is exactly
length_upstream from the inlet edge and length_downstream from the outlet
edge. -/
theorem mesh_ext_domain_geometry (params : Params) :
    (mesh_ext_domain params).dx = params.length_upstream + params.length_downstream ∧
    (mesh_ext_domain params).dy = params.height ∧
    (mesh_ext_domain params).xc =
      (params.length_upstream + params.length_downstream) / 2 - params.length_upstream ∧
    (mesh_ext_domain params).xc - (mesh_ext_domain params).dx / 2 =
      -params.length_upstream ∧
    (mesh_ext_domain params).xc + (mesh_ext_domain params).dx / 2 =
      params.length_downstream := by
  refine ⟨rfl, rfl, rfl, ?_, ?_⟩ <;> simp [mesh_ext_domain] <;> ring

/-- C5: for every non-empty cylinder position list and every parameter bundle,
the per-cylinder loop of mesh passes 7 positional arguments to
add_refinement_zone_rect, which takes 6, so the first cylinder already raises
a TypeError and no refinement field is ever appended to the fields list. -/
theorem mesh_refinement_call_arity_error (cyls : List (ℚ × ℚ)) (params : Params)
    (h : cyls ≠ []) :
    mesh_refinement_fields cyls params =
      Except.error ("TypeError: add_refinement_zone_rect takes 6 positional arguments") := by
  match cyls with
  | [] => exact absurd rfl h
  | pos :: rest => rfl

/-- Witness for C5 at the single-cylinder scenario with unit parameters. -/
theorem mesh_refinement_call_arity_error_witness :
    ([((0 : ℚ), (0 : ℚ))] ≠ ([] : List (ℚ × ℚ))) ∧
    mesh_refinement_fields [((0 : ℚ), (0 : ℚ))] (Params.mk 1 1 1 1 1 1 1 1 1) =
      Except.error ("TypeError: add_refinement_zone_rect takes 6 positional arguments") :=
  ⟨by simp, mesh_refinement_call_arity_error _ _ (by simp)⟩

/-- C4: evaluation of the per-cylinder refinement registration at the failing
input, one cylinder at the origin with the documented default parameters: the
call with the extra seventh argument 40 * diameter raises a TypeError instead
of registering the wake-biased box field the spec describes. -/
theorem mesh_refinement_default_params_type_error :
    mesh_refinement_fields [((0 : ℚ), (0 : ℚ))] params_default =
      Except.error ("TypeError: add_refinement_zone_rect takes 6 positional arguments") := by
  rfl

/-- Supporting fact, not tied to a claim: had the loop passed the 6 declared
arguments, the registered box would have the geometry the spec describes: it
extends length_refinement upstream and length_refinement_downstream downstream
of the cylinder center, has height 2 * length_refinement, inner size
refined_mesh_size, outer size global_mesh_size and thickness 0.3. -/
theorem add_refinement_zone_rect_box_geometry (params : Params) (px py : ℚ) :
    let total_length := params.length_refinement + params.length_refinement_downstream
    let f := add_refinement_zone_rect (total_length / 2 - params.length_refinement + px) py
      total_length (params.length_refinement * 2) params.refined_mesh_size
      params.global_mesh_size
    f.xmin = px - params.length_refinement ∧
    f.xmax = px + params.length_refinement_downstream ∧
    f.ymin = py - params.length_refinement ∧
    f.ymax = py + params.length_refinement ∧
    f.vin = params.refined_mesh_size ∧
    f.vout = params.global_mesh_size ∧
    f.thickness = 3 / 10 := by
  refine ⟨?_, ?_, ?_, ?_, rfl, rfl, rfl⟩ <;> simp [add_refinement_zone_rect] <;> ring

/-- C9 counterexample: with xc = yc = 0, dist_min = 0 < dist_max = 2,
mesh_size_in = 1, mesh_size_out = 3, the claim predicts the size at distance 1
to be the linear value 2, but the field built by threshold (whose DistMin is
set to dist_max) evaluates to 1 there. -/
theorem threshold_not_linear_counterexample :
    thresholdEval (threshold 0 0 0 2 1 3) 1 = 1 ∧
    threshold_spec_eval 0 2 1 3 1 = 2 ∧
    ((1 : ℚ) ≠ 2) := by
  refine ⟨?_, ?_, by norm_num⟩ <;> norm_num [threshold, thresholdEval, threshold_spec_eval]

/-- C9 amended: threshold ignores its dist_min argument and sets both DistMin
and DistMax to dist_max, so the built field is a step, not a linear ramp: it
evaluates to mesh_size_in at every distance at most dist_max and saturates at
mesh_size_out at every distance beyond dist_max. -/
theorem threshold_step_behavior (xc yc dist_min dist_max mesh_size_in mesh_size_out d : ℚ) :
    (d ≤ dist_max →
      thresholdEval (threshold xc yc dist_min dist_max mesh_size_in mesh_size_out) d =
        mesh_size_in) ∧
    (dist_max < d →
      thresholdEval (threshold xc yc dist_min dist_max mesh_size_in mesh_size_out) d =
        mesh_size_out) := by
  constructor <;> intro hd
  · simp [threshold, thresholdEval, hd]
  · simp [threshold, thresholdEval, le_of_lt hd, not_le.mpr hd]

/-- Witness for C9 amended at dist_max = 2, sizes 1 and 3: distance 1 gives 1,
distance 3 gives 3. -/
theorem threshold_step_behavior_witness :
    ((1 : ℚ) ≤ 2) ∧ ((2 : ℚ) < 3) ∧
    thresholdEval (threshold 0 0 0 2 1 3) 1 = 1 ∧
    thresholdEval (threshold 0 0 0 2 1 3) 3 = 3 :=
  ⟨by norm_num, by norm_num,
    (threshold_step_behavior 0 0 0 2 1 3 1).1 (by norm_num),
    (threshold_step_behavior 0 0 0 2 1 3 3).2 (by norm_num)⟩

/-- Helper: a left fold of min over a list of rationals bounds the seed and
every element from below, and is attained at the seed or at an element. -/
theorem foldl_min_spec (a : ℚ) (l : List ℚ) :
    (l.foldl min a ≤ a ∧ ∀ x ∈ l, l.foldl min a ≤ x) ∧
    (l.foldl min a = a ∨ l.foldl min a ∈ l) := by
  induction l generalizing a with
  | nil => simp
  | cons x xs ih =>
    simp only [List.foldl_cons]
    obtain ⟨⟨h1, h2⟩, h3⟩ := ih (min a x)
    refine ⟨⟨le_trans h1 (min_le_left _ _), ?_⟩, ?_⟩
    · intro y hy
      rcases List.mem_cons.mp hy with rfl | hy
      · exact le_trans h1 (min_le_right _ _)
      · exact h2 y hy
    · rcases h3 with h3 | h3
      · rcases min_choice a x with hm | hm
        · exact Or.inl (h3.trans hm)
        · exact Or.inr (by rw [h3, hm]; exact List.mem_cons_self _ _)
      · exact Or.inr (List.mem_cons_of_mem _ h3)

/-- C2: for every non-empty list of registered fields, the background field
installed by apply_fields evaluates at every point to the elementwise minimum
of exactly those fields at that point: it bounds each of them from below and
is attained by one of them, so overlapping zones resolve to the smallest
requested size, never an average. -/
theorem apply_fields_background_min (fields : List ((ℚ × ℚ) → ℚ)) (p : ℚ × ℚ)
    (h : fields ≠ []) :
    (∀ f ∈ fields, apply_fields fields p ≤ f p) ∧
    (∃ f ∈ fields, apply_fields fields p = f p) := by
  match fields with
  | [] => exact absurd rfl h
  | f :: fs =>
    have key : apply_fields (f :: fs) p = (fs.map (fun g => g p)).foldl min (f p) := by
      simp [apply_fields, minFieldEval, List.foldl_map]
    obtain ⟨⟨h1, h2⟩, h3⟩ := foldl_min_spec (f p) (fs.map (fun g => g p))
    constructor
    · intro g hg
      rcases List.mem_cons.mp hg with rfl | hg
      · rw [key]; exact h1
      · rw [key]; exact h2 _ (List.mem_map_of_mem _ hg)
    · rcases h3 with h3 | h3
      · exact ⟨f, List.mem_cons_self _ _, key.trans h3⟩
      · obtain ⟨g, hg, hgp⟩ := List.mem_map.mp h3
        exact ⟨g, List.mem_cons_of_mem _ hg, key.trans hgp.symm⟩

/-- Witness for C2 on two constant fields of sizes 2 and 1 at the origin: the
installed background field is bounded by both. -/
theorem apply_fields_background_min_witness :
    ([(fun _ : ℚ × ℚ => (2 : ℚ)), (fun _ : ℚ × ℚ => (1 : ℚ))] ≠
      ([] : List ((ℚ × ℚ) → ℚ))) ∧
    apply_fields [(fun _ : ℚ × ℚ => (2 : ℚ)), (fun _ : ℚ × ℚ => (1 : ℚ))] (0, 0) ≤ 2 ∧
    apply_fields [(fun _ : ℚ × ℚ => (2 : ℚ)), (fun _ : ℚ × ℚ => (1 : ℚ))] (0, 0) ≤ 1 :=
  ⟨by simp,
    (apply_fields_background_min _ (0, 0) (by simp)).1 _ (List.mem_cons_self _ _),
    (apply_fields_background_min _ (0, 0) (by simp)).1 _
      (List.mem_cons_of_mem _ (List.mem_cons_self _ _))⟩

/-- Helper: for n at least 1, the arc count int(n * np.pi) is at least 3. -/
theorem circle_distribution_ge_three (n : ℕ) (hn : 1 ≤ n) :
    3 ≤ ⌊(n : ℚ) * npPi⌋₊ := by
  apply Nat.le_floor
  have hn1 : (1 : ℚ) ≤ (n : ℚ) := by exact_mod_cast hn
  have hpi : (3 : ℚ) ≤ npPi := by norm_num [npPi]
  push_cast
  nlinarith

/-- C3: for every center, diameter and n_points at least 1, the circle
constructor creates exactly int(n_points * np.pi) arcs, this count is at least
1, arc i spans angles 2 pi / count * i to 2 pi / count * (1 + i), and the arcs
partition the full circle: the first starts at angle 0, consecutive arcs share
their common endpoint, the last ends at the full angle 2 pi, and every arc has
positive angular width, so there is no gap and no overlap. -/
theorem circle_discretization (xc yc d : ℚ) (n : ℕ) (hn : 1 ≤ n) :
    (Circle.make xc yc d n).arcs.length = ⌊(n : ℚ) * npPi⌋₊ ∧
    1 ≤ (Circle.make xc yc d n).arcs.length ∧
    (∀ i (h : i < (Circle.make xc yc d n).arcs.length),
      (Circle.make xc yc d n).arcs.get ⟨i, h⟩ =
        (2 * npPi / ((Circle.make xc yc d n).distribution : ℚ) * (i : ℚ),
         2 * npPi / ((Circle.make xc yc d n).distribution : ℚ) * (1 + (i : ℚ)))) ∧
    (∀ h0 : 0 < (Circle.make xc yc d n).arcs.length,
      ((Circle.make xc yc d n).arcs.get ⟨0, h0⟩).1 = 0) ∧
    (∀ i (h : i + 1 < (Circle.make xc yc d n).arcs.length),
      ((Circle.make xc yc d n).arcs.get ⟨i, Nat.lt_of_succ_lt h⟩).2 =
        ((Circle.make xc yc d n).arcs.get ⟨i + 1, h⟩).1) ∧
    (∀ h0 : 0 < (Circle.make xc yc d n).arcs.length,
      ((Circle.make xc yc d n).arcs.get
          ⟨(Circle.make xc yc d n).arcs.length - 1, Nat.sub_lt h0 Nat.one_pos⟩).2 =
        2 * npPi) ∧
    (∀ i (h : i < (Circle.make xc yc d n).arcs.length),
      ((Circle.make xc yc d n).arcs.get ⟨i, h⟩).1 <
        ((Circle.make xc yc d n).arcs.get ⟨i, h⟩).2) := by
  have hdist : (Circle.make xc yc d n).distribution = ⌊(n : ℚ) * npPi⌋₊ := rfl
  have hlen : (Circle.make xc yc d n).arcs.length = ⌊(n : ℚ) * npPi⌋₊ := by
    simp only [Circle.make, List.length_map, List.length_range]
  have hge3 := circle_distribution_ge_three n hn
  have hdpos : 0 < (Circle.make xc yc d n).distribution := by omega
  have hdQ : (0 : ℚ) < ((Circle.make xc yc d n).distribution : ℚ) := by
    exact_mod_cast hdpos
  have hpi : (0 : ℚ) < npPi := by norm_num [npPi]
  have hstep : (0 : ℚ) < 2 * npPi / ((Circle.make xc yc d n).distribution : ℚ) := by
    positivity
  have harc : ∀ i (h : i < (Circle.make xc yc d n).arcs.length),
      (Circle.make xc yc d n).arcs.get ⟨i, h⟩ =
        (2 * npPi / ((Circle.make xc yc d n).distribution : ℚ) * (i : ℚ),
         2 * npPi / ((Circle.make xc yc d n).distribution : ℚ) * (1 + (i : ℚ))) := by
    intro i h
    simp only [Circle.make, List.get_eq_getElem, List.getElem_map, List.getElem_range]
  refine ⟨hlen, by omega, harc, ?_, ?_, ?_, ?_⟩
  · intro h0
    rw [harc 0 h0]
    norm_num
  · intro i h
    rw [harc i (Nat.lt_of_succ_lt h), harc (i + 1) h]
    push_cast
    ring
  · intro h0
    rw [harc _ (Nat.sub_lt h0 Nat.one_pos)]
    have hld : (Circle.make xc yc d n).arcs.length =
        (Circle.make xc yc d n).distribution := by rw [hlen, hdist]
    rw [hld]
    have hcast : (((Circle.make xc yc d n).distribution - 1 : ℕ) : ℚ) =
        ((Circle.make xc yc d n).distribution : ℚ) - 1 := by
      push_cast [Nat.cast_sub hdpos]
      ring
    rw [hcast]
    have h1D : 1 + (((Circle.make xc yc d n).distribution : ℚ) - 1) =
        ((Circle.make xc yc d n).distribution : ℚ) := by ring
    rw [h1D]
    exact div_mul_cancel₀ _ hdQ.ne'
  · intro i h
    rw [harc i h]
    have : (i : ℚ) < 1 + (i : ℚ) := by linarith
    exact mul_lt_mul_of_pos_left this hstep

/-- Witness for C3 at the unit circle with n_points = 1. -/
theorem circle_discretization_witness :
    1 ≤ 1 ∧
    (Circle.make 0 0 1 1).arcs.length = ⌊((1 : ℕ) : ℚ) * npPi⌋₊ ∧
    1 ≤ (Circle.make 0 0 1 1).arcs.length :=
  ⟨le_refl 1, (circle_discretization 0 0 1 1 (le_refl 1)).1,
    (circle_discretization 0 0 1 1 (le_refl 1)).2.1⟩

/-- C7: for every rectangle with positive sides, define_bc follows the fixed
index convention: line 3 (both endpoints at the minimal abscissa, the
geometrically left, upstream edge) is named inlet, line 1 (maximal abscissa,
right edge) outlet, line 2 (maximal ordinate, top edge) wall_top, line 0
(minimal ordinate, bottom edge) wall_bottom; cylinder i of the mesh loop is
named cyl followed by i in enumeration order, and the surface is named
fluid. -/
theorem define_bc_convention (r : Rectangle) (hdx : 0 < r.dx) (hdy : 0 < r.dy)
    (n i : ℕ) (hi : i < n) :
    Rectangle.bc_names.lookup 3 = some ("inlet") ∧
    Rectangle.bc_names.lookup 1 = some ("outlet") ∧
    Rectangle.bc_names.lookup 2 = some ("wall_top") ∧
    Rectangle.bc_names.lookup 0 = some ("wall_bottom") ∧
    ((r.line 3).1.1 = r.xc - r.dx / 2 ∧ (r.line 3).2.1 = r.xc - r.dx / 2 ∧
      ∀ p ∈ r.corner_points, r.xc - r.dx / 2 ≤ p.1) ∧
    ((r.line 1).1.1 = r.xc + r.dx / 2 ∧ (r.line 1).2.1 = r.xc + r.dx / 2 ∧
      ∀ p ∈ r.corner_points, p.1 ≤ r.xc + r.dx / 2) ∧
    ((r.line 2).1.2 = r.yc + r.dy / 2 ∧ (r.line 2).2.2 = r.yc + r.dy / 2 ∧
      ∀ p ∈ r.corner_points, p.2 ≤ r.yc + r.dy / 2) ∧
    ((r.line 0).1.2 = r.yc - r.dy / 2 ∧ (r.line 0).2.2 = r.yc - r.dy / 2 ∧
      ∀ p ∈ r.corner_points, r.yc - r.dy / 2 ≤ p.2) ∧
    (mesh_cyl_bc_names n)[i]? = some ("cyl" ++ toString i) ∧
    PlaneSurface.bc_name = "fluid" := by
  refine ⟨rfl, rfl, rfl, rfl, ⟨rfl, rfl, ?_⟩, ⟨rfl, rfl, ?_⟩, ⟨rfl, rfl, ?_⟩,
    ⟨rfl, rfl, ?_⟩, ?_, rfl⟩
  · intro p hp
    rcases List.mem_cons.mp hp with rfl | hp
    · simp
    rcases List.mem_cons.mp hp with rfl | hp
    · simp; linarith
    rcases List.mem_cons.mp hp with rfl | hp
    · simp; linarith
    rcases List.mem_cons.mp hp with rfl | hp
    · simp
    simp at hp
  · intro p hp
    rcases List.mem_cons.mp hp with rfl | hp
    · simp; linarith
    rcases List.mem_cons.mp hp with rfl | hp
    · simp
    rcases List.mem_cons.mp hp with rfl | hp
    · simp
    rcases List.mem_cons.mp hp with rfl | hp
    · simp; linarith
    simp at hp
  · intro p hp
    rcases List.mem_cons.mp hp with rfl | hp
    · simp; linarith
    rcases List.mem_cons.mp hp with rfl | hp
    · simp; linarith
    rcases List.mem_cons.mp hp with rfl | hp
    · simp
    rcases List.mem_cons.mp hp with rfl | hp
    · simp
    simp at hp
  · intro p hp
    rcases List.mem_cons.mp hp with rfl | hp
    · simp
    rcases List.mem_cons.mp hp with rfl | hp
    · simp
    rcases List.mem_cons.mp hp with rfl | hp
    · simp; linarith
    rcases List.mem_cons.mp hp with rfl | hp
    · simp; linarith
    simp at hp
  · simp [mesh_cyl_bc_names, circle_bc_name, List.getElem?_map, List.getElem?_range, hi]

/-- Witness for C7 on the rectangle of center (0, 0) and sides 2 and 1, with 2
cylinders and index 1. -/
theorem define_bc_convention_witness :
    (0 : ℚ) < (Rectangle.mk 0 0 2 1 1).dx ∧
    (0 : ℚ) < (Rectangle.mk 0 0 2 1 1).dy ∧
    (1 : ℕ) < 2 ∧
    Rectangle.bc_names.lookup 3 = some ("inlet") ∧
    (mesh_cyl_bc_names 2)[1]? = some ("cyl" ++ toString 1) :=
  ⟨by norm_num, by norm_num, by norm_num,
    (define_bc_convention (Rectangle.mk 0 0 2 1 1) (by norm_num) (by norm_num)
      2 1 (by norm_num)).1,
    (define_bc_convention (Rectangle.mk 0 0 2 1 1) (by norm_num) (by norm_num)
      2 1 (by norm_num)).2.2.2.2.2.2.2.2.1⟩

/-- C8 counterexample: at diameter -1 the circle constructor does not fail: it
issues its arc registrations to the engine (15 of them at n_points = 5) with
the negative radius -1/2 forwarded verbatim; at side dx = 0 the rectangle
constructor registers its 4 corner points, corners 0 and 1 coinciding; a point
with mesh size -1 keeps that mesh size. No error precedes the engine calls and
nothing is clamped. -/
theorem primitive_no_validation_counterexample :
    (Circle.make 0 0 (-1) 5).arcs.length = 15 ∧
    (Circle.make 0 0 (-1) 5).arcs ≠ [] ∧
    (Circle.make 0 0 (-1) 5).radius = -(1 / 2) ∧
    (Rectangle.mk 0 0 0 1 (-1)).corner_points.length = 4 ∧
    ((Rectangle.mk 0 0 0 1 (-1)).corner_points)[0]? =
      ((Rectangle.mk 0 0 0 1 (-1)).corner_points)[1]? ∧
    (Rectangle.mk 0 0 0 1 (-1)).mesh_size = -1 ∧
    (Point.make 0 0 (-1)).mesh_size = -1 := by
  have h15 : (Circle.make 0 0 (-1) 5).arcs.length = 15 := by
    simp only [Circle.make, List.length_map, List.length_range]
    rw [Nat.floor_eq_iff (by norm_num [npPi])]
    norm_num [npPi]
  refine ⟨h15, ?_, by norm_num [Circle.make], rfl,
    by norm_num [Rectangle.corner_points], rfl, rfl⟩
  intro hnil
  rw [hnil] at h15
  simp at h15

/-- C8 amended: the constructors perform no validation at all: for zero or
negative diameter the circle still registers its arcs with radius diameter/2
forwarded verbatim, a rectangle with a zero-length side still registers its 4
corners, and a non-positive mesh size is stored unchanged; nothing fails before
the engine calls and nothing is silently clamped or replaced by a default. -/
theorem primitive_constructors_forward_unvalidated (xc yc d msize : ℚ) (n : ℕ)
    (hd : d ≤ 0) (hm : msize ≤ 0) (hn : 1 ≤ n) :
    (Circle.make xc yc d n).radius = d / 2 ∧
    (Circle.make xc yc d n).arcs ≠ [] ∧
    (Rectangle.mk xc yc 0 d msize).mesh_size = msize ∧
    (Rectangle.mk xc yc 0 d msize).corner_points.length = 4 ∧
    (Point.make xc yc msize).mesh_size = msize := by
  refine ⟨rfl, ?_, rfl, rfl, rfl⟩
  have hlen : (Circle.make xc yc d n).arcs.length = ⌊(n : ℚ) * npPi⌋₊ := by
    simp only [Circle.make, List.length_map, List.length_range]
  have hge3 := circle_distribution_ge_three n hn
  intro hnil
  rw [hnil] at hlen
  simp at hlen
  omega

/-- Witness for C8 amended at diameter -1, mesh size -1, n_points = 5. -/
theorem primitive_constructors_forward_unvalidated_witness :
    ((-1 : ℚ) ≤ 0) ∧ (1 ≤ 5) ∧
    (Circle.make 0 0 (-1) 5).radius = (-1) / 2 ∧
    (Circle.make 0 0 (-1) 5).arcs ≠ [] :=
  ⟨by norm_num, by norm_num,
    (primitive_constructors_forward_unvalidated 0 0 (-1) (-1) 5 (by norm_num)
      (by norm_num) (by norm_num)).1,
    (primitive_constructors_forward_unvalidated 0 0 (-1) (-1) 5 (by norm_num)
      (by norm_num) (by norm_num)).2.1⟩

/-- Helper: pointwise effect of one engine point translation. -/
theorem translate_point_apply (s : PointStore) (t u : ℕ) (v : ℚ × ℚ × ℚ) :
    translate_point s t v u = s u + (if u = t then v else 0) := by
  by_cases h : u = t <;> simp [translate_point, h]

/-- Helper: pointwise effect of translating a list of lines: each point tag is
displaced by the translation vector once per endpoint occurrence. -/
theorem lines_translation_apply (L : List (ℕ × ℕ)) (v : ℚ × ℚ × ℚ)
    (s : PointStore) (u : ℕ) :
    lines_translation L v s u = s u + endpoint_count L u • v := by
  induction L generalizing s with
  | nil => simp [lines_translation, endpoint_count]
  | cons l L ih =>
    simp only [lines_translation, List.foldl_cons] at ih ⊢
    rw [ih]
    have hline : translate_line s l v u =
        s u + ((if u = l.1 then v else 0) + (if u = l.2 then v else 0)) := by
      rw [translate_line, translate_point_apply, translate_point_apply]
      abel
    have hcount : endpoint_count (l :: L) u =
        ((if u = l.1 then 1 else 0) + (if u = l.2 then 1 else 0)) + endpoint_count L u := by
      simp [endpoint_count]
    rw [hline, hcount]
    by_cases h1 : u = l.1 <;> by_cases h2 : u = l.2 <;>
      simp [h1, h2, add_smul, one_smul, zero_smul] <;> abel

/-- C10: translating by v and then by -v is the identity on every constituent
point: for a single point, for a rectangle (whose translation translates each
of its 4 lines, each line moving with its endpoint vertices), and for a circle
(whose translation translates every arc of its arc list). -/
theorem translation_round_trip (s : PointStore) (v : ℚ × ℚ × ℚ)
    (arcs : List ArcGeom) (t : ℕ) :
    translate_point (translate_point s t v) t (-v) = s ∧
    Rectangle.translation (Rectangle.translation s v) (-v) = s ∧
    Circle.translation (Circle.translation arcs v) (-v) = arcs := by
  refine ⟨?_, ?_, ?_⟩
  · funext u
    by_cases hu : u = t <;> simp [translate_point, hu]
  · funext u
    simp only [Rectangle.translation]
    rw [lines_translation_apply, lines_translation_apply, smul_neg]
    abel
  · induction arcs with
    | nil => rfl
    | cons a rest ih =>
      simp only [Circle.translation, List.map_cons, List.cons.injEq] at ih ⊢
      refine ⟨?_, ih⟩
      cases a
      simp

end GmshScripting
